import Mathlib

/-!
Verification of the circuit-breaker library (package circuit_breaker).

The Go code is shallowly embedded as follows.

* A breaker (CircuitBreakerImpl) is a record holding the configuration
  fields (threshold, halfOpenTimeout, failureCountResetTimeout, all uint64
  or time.Duration in Go, modelled as Nat), the current state, a heap of
  stateClosed cells, and the list of delayed actions armed so far.
* The Go state interface has three implementations: stateOpen and
  stateHalfOpen (empty singletons) and stateClosed, a heap-allocated pair
  of a uint64 failure counter and a copied threshold.  Because the decay
  goroutine armed by stateClosed.onFailed captures a pointer to one
  specific stateClosed object, closed states are modelled as indices
  into an allocation list (cells); Close and NewCircuitBreaker allocate
  fresh cells, mirroring closed(threshold) in the source.
* uint64 arithmetic is Nat arithmetic taken modulo 2^64:
  atomic.AddUint64(x, 1) is (x + 1) % 2^64, and the decrement
  atomic.AddUint64(x, ^uint64(0)) is (x + (2^64 - 1)) % 2^64.
* The two kinds of goroutines spawned by the code (the half-open timer
  armed by Open and the decay action armed by stateClosed.onFailed) are
  recorded as pending Action values when armed; fireAction executes the
  body of such a goroutine after its time.Sleep returns.
* The guarded function f passed to InvokeFunc is represented by the
  error value it would return: none for nil, some e otherwise, where an
  IgnoreError-wrapped error is the ignoreError constructor.  InvokeFunc
  reports the returned error, whether f was invoked, and the new breaker.
-/

namespace CircuitBreakerGo

/-- 2^64, the modulus of Go uint64 arithmetic. -/
def uint64Mod : Nat := 2 ^ 64

/-- The Go error interface: a plain error value, or an IgnoreError
wrapping an inner error (NewIgnoreError). -/
inductive GoError where
  | plain (msg : String)
  | ignoreError (inner : GoError)
deriving DecidableEq, Repr

/-- isIgnoreError: the type assertion err.(*IgnoreError) succeeds exactly
on IgnoreError values. -/
def isIgnoreError : GoError → Bool
  | .ignoreError _ => true
  | _ => false

/-- One heap-allocated stateClosed object: a failure counter and the
threshold copied at allocation time by closed(threshold). -/
structure ClosedCell where
  failureCount : Nat
  threshold : Nat
deriving DecidableEq, Repr

/-- closed(threshold): a fresh stateClosed with failureCount 0. -/
def closedCell (threshold : Nat) : ClosedCell :=
  { failureCount := 0, threshold := threshold }

/-- The current state of a breaker: the stateOpen singleton, the
stateHalfOpen singleton, or a pointer (heap index) to a stateClosed. -/
inductive StateRef where
  | stateOpen
  | stateHalfOpen
  | stateClosed (idx : Nat)
deriving DecidableEq, Repr

/-- A delayed action armed by a goroutine: the half-open probe timer
armed by Open (carrying its halfOpenTimeout delay), or the decay action
armed by stateClosed.onFailed (carrying the index of the captured
stateClosed object and the failureCountResetTimeout delay). -/
inductive Action where
  | halfOpenTimer (delay : Nat)
  | decayTimer (idx : Nat) (delay : Nat)
deriving DecidableEq, Repr

/-- CircuitBreakerImpl together with the heap of stateClosed objects it
has allocated and the delayed actions it has armed. -/
structure CircuitBreakerImpl where
  threshold : Nat
  halfOpenTimeout : Nat
  failureCountResetTimeout : Nat
  state : StateRef
  cells : List ClosedCell
  pending : List Action
deriving DecidableEq, Repr

/-- Read heap cell i (the Go pointer dereference; a dangling index reads
a dummy zero cell, never reached by the modelled code). -/
def getCellList : List ClosedCell → Nat → ClosedCell
  | [], _ => closedCell 0
  | c :: _, 0 => c
  | _ :: t, i + 1 => getCellList t i

/-- Write heap cell i in place (the Go pointer store). -/
def setCellList : List ClosedCell → Nat → ClosedCell → List ClosedCell
  | [], _, _ => []
  | _ :: t, 0, cell => cell :: t
  | c :: t, i + 1, cell => c :: setCellList t i cell

def getCell (c : CircuitBreakerImpl) (i : Nat) : ClosedCell :=
  getCellList c.cells i

def setCell (c : CircuitBreakerImpl) (i : Nat) (cell : ClosedCell) : CircuitBreakerImpl :=
  { c with cells := setCellList c.cells i cell }

/-- NewCircuitBreaker(threshold, halfOpenTimeout, failureCountResetTimeout):
state starts as a fresh closed(threshold) cell. -/
def NewCircuitBreaker (threshold halfOpenTimeout failureCountResetTimeout : Nat) :
    CircuitBreakerImpl :=
  { threshold := threshold
    halfOpenTimeout := halfOpenTimeout
    failureCountResetTimeout := failureCountResetTimeout
    state := .stateClosed 0
    cells := [closedCell threshold]
    pending := [] }

/-- c.IsOpen(): c.state == open compares the interface value against the
stateOpen singleton, i.e. it is a discriminant test. -/
def IsOpen (c : CircuitBreakerImpl) : Bool :=
  match c.state with
  | .stateOpen => true
  | _ => false

/-- c.isHalfOpen(): c.state == halfOpen. -/
def isHalfOpen (c : CircuitBreakerImpl) : Bool :=
  match c.state with
  | .stateHalfOpen => true
  | _ => false

/-- s.FailureCount(): atomic load of the counter of stateClosed cell i. -/
def FailureCount (c : CircuitBreakerImpl) (i : Nat) : Nat :=
  (getCell c i).failureCount

/-- s.IncrementFailureCount(): atomic.AddUint64(&s.failureCount, 1). -/
def IncrementFailureCount (c : CircuitBreakerImpl) (i : Nat) : CircuitBreakerImpl :=
  setCell c i
    { getCell c i with failureCount := ((getCell c i).failureCount + 1) % uint64Mod }

/-- s.DecrementFailureCount(): atomic.AddUint64(&s.failureCount, ^uint64(0)),
i.e. addition of 2^64 - 1 modulo 2^64. -/
def DecrementFailureCount (c : CircuitBreakerImpl) (i : Nat) : CircuitBreakerImpl :=
  setCell c i
    { getCell c i with
      failureCount := ((getCell c i).failureCount + (uint64Mod - 1)) % uint64Mod }

/-- s.IsThresholdExceeded(): s.FailureCount() >= s.threshold, on the
cell's own copied threshold. -/
def IsThresholdExceeded (c : CircuitBreakerImpl) (i : Nat) : Bool :=
  (getCell c i).failureCount ≥ (getCell c i).threshold

/-- c.mutateState(state): replace the state field (under the mutex). -/
def mutateState (c : CircuitBreakerImpl) (s : StateRef) : CircuitBreakerImpl :=
  { c with state := s }

/-- c.Open(): mutateState(open), then arm the half-open probe goroutine
(sleep halfOpenTimeout, then if still open, HalfOpen). -/
def Open (c : CircuitBreakerImpl) : CircuitBreakerImpl :=
  let c1 := mutateState c .stateOpen
  { c1 with pending := c1.pending ++ [.halfOpenTimer c1.halfOpenTimeout] }

/-- c.HalfOpen(): mutateState(halfOpen). -/
def HalfOpen (c : CircuitBreakerImpl) : CircuitBreakerImpl :=
  mutateState c .stateHalfOpen

/-- c.Close(): mutateState(closed(c.threshold)) — allocates a brand-new
stateClosed cell with a zero counter. -/
def Close (c : CircuitBreakerImpl) : CircuitBreakerImpl :=
  let c1 := { c with cells := c.cells ++ [closedCell c.threshold] }
  mutateState c1 (.stateClosed c.cells.length)

/-- (s *stateClosed).onFailed(breaker): increment the captured cell, trip
the breaker if the threshold is reached, and unconditionally arm the
decay goroutine bound to this same cell. -/
def closedOnFailed (c : CircuitBreakerImpl) (i : Nat) : CircuitBreakerImpl :=
  let c1 := IncrementFailureCount c i
  let c2 := if IsThresholdExceeded c1 i then Open c1 else c1
  { c2 with pending := c2.pending ++ [.decayTimer i c2.failureCountResetTimeout] }

/-- c.NotifyFailure(): c.state.onFailed(c), dispatching on the dynamic
state: stateClosed increments and maybe trips, stateHalfOpen reopens
immediately, stateOpen is a no-op. -/
def NotifyFailure (c : CircuitBreakerImpl) : CircuitBreakerImpl :=
  match c.state with
  | .stateClosed i => closedOnFailed c i
  | .stateHalfOpen => Open c
  | .stateOpen => c

/-- c.NotifySuccess(): if half-open, Close; otherwise nothing. -/
def NotifySuccess (c : CircuitBreakerImpl) : CircuitBreakerImpl :=
  if isHalfOpen c then Close c else c

/-- The value returned by InvokeFunc: the ErrCircuitBreakerOpen fast-fail
error, or the value the wrapped call returns to the caller. -/
inductive InvokeResult where
  | circuitOpen
  | returned (e : Option GoError)
deriving DecidableEq, Repr

/-- The full outcome of one InvokeFunc call: the returned error, whether
the guarded function f was invoked, and the breaker afterwards. -/
structure InvokeOutcome where
  result : InvokeResult
  invoked : Bool
  world : CircuitBreakerImpl
deriving DecidableEq, Repr

/-- c.InvokeFunc(f), with f represented by the error it would return:
if open, fail fast without calling f; otherwise call f, route a non-nil
non-ignored error to NotifyFailure and return it, and route nil or an
IgnoreError to NotifySuccess and return nil. -/
def InvokeFunc (c : CircuitBreakerImpl) (fres : Option GoError) : InvokeOutcome :=
  if IsOpen c then
    { result := .circuitOpen, invoked := false, world := c }
  else
    match fres with
    | some e =>
      if !isIgnoreError e then
        { result := .returned (some e), invoked := true, world := NotifyFailure c }
      else
        { result := .returned none, invoked := true, world := NotifySuccess c }
    | none =>
      { result := .returned none, invoked := true, world := NotifySuccess c }

/-- The body of a delayed goroutine once its time.Sleep has elapsed:
the half-open timer re-checks IsOpen at fire time before HalfOpen; the
decay action decrements the captured stateClosed cell unconditionally. -/
def fireAction (c : CircuitBreakerImpl) (a : Action) : CircuitBreakerImpl :=
  match a with
  | .halfOpenTimer _ => if IsOpen c then HalfOpen c else c
  | .decayTimer i _ => DecrementFailureCount c i

/-- CircuitBreakerView, the read-only snapshot returned by View. -/
structure CircuitBreakerView where
  Threshold : Nat
  State : String
  HalfOpenTimeout : Nat
  FailureCountResetTimeout : Nat
deriving DecidableEq, Repr

/-- c.state.String(): "open", "halfOpen", or the closed rendering with
the live failure count. -/
def stateString (c : CircuitBreakerImpl) : String :=
  match c.state with
  | .stateOpen => "open"
  | .stateHalfOpen => "halfOpen"
  | .stateClosed i =>
      "closed: \x7bfailureCount: " ++ toString (getCell c i).failureCount ++
        ", threshold: " ++ toString (getCell c i).threshold ++ "\x7d"

/-- c.View(): the diagnostic snapshot. -/
def View (c : CircuitBreakerImpl) : CircuitBreakerView :=
  { Threshold := c.threshold
    State := stateString c
    HalfOpenTimeout := c.halfOpenTimeout
    FailureCountResetTimeout := c.failureCountResetTimeout }

/-! The partitioned registry (partitioned.go).  Keys are modelled by
their stable string representation (NewKey(st) = Key(st.String())).
The sync.Map is modelled as an association list; its Load and Store are
each one atomic operation on the map.  Because breakers are values here
rather than pointers, InvokeFunc stores the updated breaker back, which
is exactly the Store call the Go code performs. -/

/-- PartitionedCircuitBreakerImpl: shared configuration plus the
key-to-breaker map. -/
structure PartitionedCircuitBreakerImpl where
  threshold : Nat
  halfOpenTimeout : Nat
  failureCountResetTimeout : Nat
  circuitBreakerMap : List (String × CircuitBreakerImpl)
deriving DecidableEq, Repr

/-- circuitBreakerMap.Load(key). -/
def mapLoad : List (String × CircuitBreakerImpl) → String → Option CircuitBreakerImpl
  | [], _ => none
  | (k, b) :: t, key => if k = key then some b else mapLoad t key

/-- circuitBreakerMap.Store(key, breaker): replace the binding, or add
it if absent. -/
def mapStore : List (String × CircuitBreakerImpl) → String → CircuitBreakerImpl →
    List (String × CircuitBreakerImpl)
  | [], key, b => [(key, b)]
  | (k, v) :: t, key, b =>
      if k = key then (key, b) :: t else (k, v) :: mapStore t key b

/-- NewPartitionedCircuitBreaker: shared configuration, empty map. -/
def NewPartitionedCircuitBreaker (threshold halfOpenTimeout failureCountResetTimeout : Nat) :
    PartitionedCircuitBreakerImpl :=
  { threshold := threshold
    halfOpenTimeout := halfOpenTimeout
    failureCountResetTimeout := failureCountResetTimeout
    circuitBreakerMap := [] }

/-- p.InvokeFunc(k, f), in the single-caller (sequential) semantics:
Load the key's breaker, construct a fresh one on a miss, delegate to the
breaker's InvokeFunc, Store the breaker back, return its result. -/
def PartitionedInvokeFunc (p : PartitionedCircuitBreakerImpl) (k : String)
    (fres : Option GoError) : InvokeResult × PartitionedCircuitBreakerImpl :=
  let breaker :=
    match mapLoad p.circuitBreakerMap k with
    | some b => b
    | none => NewCircuitBreaker p.threshold p.halfOpenTimeout p.failureCountResetTimeout
  let out := InvokeFunc breaker fres
  (out.result, { p with circuitBreakerMap := mapStore p.circuitBreakerMap k out.world })

/-! Concurrent first access to one key.  PartitionedCircuitBreakerImpl
has no get-or-create atomicity: each caller performs Load, then (on a
miss) a local NewCircuitBreaker, then later a separate Store.  To examine
the interleaving of two callers racing on the same fresh key, the
registry state visible to both is reduced to the sync.Map binding for
that one key plus a counter of NewCircuitBreaker calls; breaker
instances are identified by allocation order. -/

/-- The sync.Map binding for one fixed key, plus how many Breaker
instances have been constructed for that key so far. -/
structure SharedRegistryState where
  binding : Option Nat
  breakersCreated : Nat
deriving DecidableEq, Repr

/-- One caller's Load step of PartitionedCircuitBreakerImpl.InvokeFunc,
fused with the conditional NewCircuitBreaker that follows a miss (the
construction is caller-local, so no other atomic map operation can fall
between the two).  Returns the instance this caller will use. -/
def loadOrCreate (s : SharedRegistryState) : SharedRegistryState × Nat :=
  match s.binding with
  | some id => (s, id)
  | none => ({ s with breakersCreated := s.breakersCreated + 1 }, s.breakersCreated)

/-- One caller's trailing Store step: p.circuitBreakerMap.Store(key, breaker). -/
def storeOwn (s : SharedRegistryState) (id : Nat) : SharedRegistryState :=
  { s with binding := some id }

/-- The interleaving in which callers A and B both Load the fresh key
before either Stores: A loads (miss, creates instance 0), B loads (miss,
creates instance 1), A stores, B stores.  Returns the final registry
state and the instances A and B used. -/
def firstAccessRace : SharedRegistryState × Nat × Nat :=
  let sA := loadOrCreate { binding := none, breakersCreated := 0 }
  let sB := loadOrCreate sA.1
  (storeOwn (storeOwn sB.1 sA.2) sB.2, sA.2, sB.2)

/-! Iterated invocations. -/

/-- n successive InvokeFunc calls whose guarded function returns the
fixed error e. -/
def failN (e : GoError) : Nat → CircuitBreakerImpl → CircuitBreakerImpl
  | 0, c => c
  | n + 1, c => (InvokeFunc (failN e n c) (some e)).world

/-- n successive InvokeFunc calls whose guarded function returns the
IgnoreError wrapping e. -/
def ignoreN (e : GoError) : Nat → CircuitBreakerImpl → CircuitBreakerImpl
  | 0, c => c
  | n + 1, c => (InvokeFunc (ignoreN e n c) (some (.ignoreError e))).world

/-- n successive registry invocations under key k whose guarded function
returns the fixed error e. -/
def partitionedFailN (e : GoError) (k : String) :
    Nat → PartitionedCircuitBreakerImpl → PartitionedCircuitBreakerImpl
  | 0, p => p
  | n + 1, p => (PartitionedInvokeFunc (partitionedFailN e k n p) k (some e)).2

/-! Heap-access lemmas. -/

theorem getCellList_set_self (l : List ClosedCell) (i : Nat) (c : ClosedCell)
    (h : i < l.length) : getCellList (setCellList l i c) i = c := by
  induction l generalizing i with
  | nil => simp at h
  | cons hd tl ih =>
    cases i with
    | zero => rfl
    | succ j =>
      simp only [List.length_cons, Nat.succ_lt_succ_iff] at h
      simpa [setCellList, getCellList] using ih j h

theorem getCellList_append_left (l ext : List ClosedCell) (j : Nat)
    (h : j < l.length) : getCellList (l ++ ext) j = getCellList l j := by
  induction l generalizing j with
  | nil => simp at h
  | cons hd tl ih =>
    cases j with
    | zero => rfl
    | succ i =>
      simp only [List.length_cons, Nat.succ_lt_succ_iff] at h
      simpa [getCellList] using ih i h

/-- Trajectory of a fresh breaker under k < T consecutive failures: it is
still the original stateClosed cell 0, its counter reads k, and each
failure has armed one decay action against cell 0. -/
theorem failN_fresh (T hot frt : Nat) (e : GoError) (he : isIgnoreError e = false)
    (hT : T < uint64Mod) :
    ∀ k, k < T →
      failN e k (NewCircuitBreaker T hot frt) =
        { threshold := T
          halfOpenTimeout := hot
          failureCountResetTimeout := frt
          state := .stateClosed 0
          cells := [{ failureCount := k, threshold := T }]
          pending := List.replicate k (.decayTimer 0 frt) } := by
  intro k
  induction k with
  | zero =>
    intro _
    simp [failN, NewCircuitBreaker, closedCell]
  | succ k ih =>
    intro hk
    have hk' : k < T := Nat.lt_of_succ_lt hk
    have hmod : (k + 1) % uint64Mod = k + 1 :=
      Nat.mod_eq_of_lt (Nat.lt_trans hk hT)
    have hnotex : ¬ (T ≤ k + 1) := Nat.not_le.mpr hk
    simp only [failN, ih hk']
    simp [InvokeFunc, IsOpen, he, NotifyFailure, closedOnFailed,
      IncrementFailureCount, IsThresholdExceeded, getCell, setCell,
      getCellList, setCellList, hmod, hnotex, List.replicate_succ']

theorem getCellList_append_self (l : List ClosedCell) (x : ClosedCell) :
    getCellList (l ++ [x]) l.length = x := by
  induction l with
  | nil => rfl
  | cons hd tl ih => simpa [getCellList] using ih

theorem IsOpen_of_state (c : CircuitBreakerImpl) (h : c.state = .stateOpen) :
    IsOpen c = true := by
  simp [IsOpen, h]

/-- C1: for every threshold T >= 1, a freshly constructed breaker (state
Closed, failure count 0) invoked with a failing, non-ignored function T
consecutive times (no intervening success) transitions to Open, and the
(T+1)-th InvokeFunc call returns the CircuitOpen error without invoking
the guarded function. -/
theorem claim_C1 (T hot frt : Nat) (e : GoError) (he : isIgnoreError e = false)
    (h1 : 1 ≤ T) (hT : T < uint64Mod) :
    (failN e T (NewCircuitBreaker T hot frt)).state = .stateOpen ∧
    (InvokeFunc (failN e T (NewCircuitBreaker T hot frt)) (some e)).result =
      .circuitOpen ∧
    (InvokeFunc (failN e T (NewCircuitBreaker T hot frt)) (some e)).invoked = false := by
  obtain ⟨T1, rfl⟩ : ∃ T1, T = T1 + 1 := ⟨T - 1, by omega⟩
  have hfr := failN_fresh (T1 + 1) hot frt e he hT T1 (Nat.lt_succ_self T1)
  have hmod : (T1 + 1) % uint64Mod = T1 + 1 := Nat.mod_eq_of_lt hT
  have hstate : (failN e (T1 + 1) (NewCircuitBreaker (T1 + 1) hot frt)).state =
      .stateOpen := by
    simp only [failN, hfr]
    simp [InvokeFunc, IsOpen, he, NotifyFailure, closedOnFailed,
      IncrementFailureCount, IsThresholdExceeded, getCell, setCell,
      getCellList, setCellList, hmod, Open, mutateState]
  refine ⟨hstate, ?_, ?_⟩ <;>
    simp [InvokeFunc, IsOpen_of_state _ hstate]

theorem claim_C1_witness :
    isIgnoreError (.plain "f") = false ∧ 1 ≤ 2 ∧ 2 < uint64Mod ∧
    ((failN (.plain "f") 2 (NewCircuitBreaker 2 5 7)).state = .stateOpen ∧
      (InvokeFunc (failN (.plain "f") 2 (NewCircuitBreaker 2 5 7))
        (some (.plain "f"))).result = .circuitOpen ∧
      (InvokeFunc (failN (.plain "f") 2 (NewCircuitBreaker 2 5 7))
        (some (.plain "f"))).invoked = false) :=
  ⟨rfl, by norm_num, by norm_num [uint64Mod],
    claim_C1 2 5 7 (.plain "f") rfl (by norm_num) (by norm_num [uint64Mod])⟩

/-- C2: for every breaker in the Open state, once halfOpenTimeout elapses
(the timer armed by Open fires, and Open always arms it) the breaker
transitions to HalfOpen; from HalfOpen, an InvokeFunc whose function
succeeds transitions it to Closed with failure count zero (a freshly
allocated cell), and an InvokeFunc whose function fails with a
non-ignored error transitions it back to Open, with no threshold check
on the single failed probe. -/
theorem claim_C2 (c : CircuitBreakerImpl) (d : Nat) (hopen : c.state = .stateOpen)
    (c' : CircuitBreakerImpl) (hhalf : c'.state = .stateHalfOpen)
    (e : GoError) (he : isIgnoreError e = false) :
    Action.halfOpenTimer c.halfOpenTimeout ∈ (Open c).pending ∧
    (fireAction c (.halfOpenTimer d)).state = .stateHalfOpen ∧
    (InvokeFunc c' none).world.state = .stateClosed c'.cells.length ∧
    FailureCount (InvokeFunc c' none).world c'.cells.length = 0 ∧
    (InvokeFunc c' (some e)).world.state = .stateOpen := by
  refine ⟨?_, ?_, ?_, ?_, ?_⟩
  · simp [Open, mutateState]
  · simp [fireAction, IsOpen, hopen, HalfOpen, mutateState]
  · simp [InvokeFunc, IsOpen, hhalf, NotifySuccess, isHalfOpen, Close, mutateState]
  · simp [InvokeFunc, IsOpen, hhalf, NotifySuccess, isHalfOpen, Close, mutateState,
      FailureCount, getCell, getCellList_append_self, closedCell]
  · simp [InvokeFunc, IsOpen, hhalf, he, NotifyFailure, Open, mutateState]

theorem claim_C2_witness :
    ({ threshold := 1, halfOpenTimeout := 2, failureCountResetTimeout := 3,
       state := .stateOpen, cells := [], pending := [] } :
        CircuitBreakerImpl).state = .stateOpen ∧
    ({ threshold := 1, halfOpenTimeout := 2, failureCountResetTimeout := 3,
       state := .stateHalfOpen, cells := [], pending := [] } :
        CircuitBreakerImpl).state = .stateHalfOpen ∧
    isIgnoreError (.plain "x") = false ∧
    (Action.halfOpenTimer 2 ∈
      (Open { threshold := 1, halfOpenTimeout := 2, failureCountResetTimeout := 3,
              state := .stateOpen, cells := [], pending := [] }).pending ∧
    (fireAction
      { threshold := 1, halfOpenTimeout := 2, failureCountResetTimeout := 3,
        state := .stateOpen, cells := [], pending := [] }
      (.halfOpenTimer 9)).state = .stateHalfOpen ∧
    (InvokeFunc
      { threshold := 1, halfOpenTimeout := 2, failureCountResetTimeout := 3,
        state := .stateHalfOpen, cells := [], pending := [] } none).world.state =
      .stateClosed 0 ∧
    FailureCount
      (InvokeFunc
        { threshold := 1, halfOpenTimeout := 2, failureCountResetTimeout := 3,
          state := .stateHalfOpen, cells := [], pending := [] } none).world 0 = 0 ∧
    (InvokeFunc
      { threshold := 1, halfOpenTimeout := 2, failureCountResetTimeout := 3,
        state := .stateHalfOpen, cells := [], pending := [] }
      (some (.plain "x"))).world.state = .stateOpen) :=
  ⟨rfl, rfl, rfl,
    claim_C2
      { threshold := 1, halfOpenTimeout := 2, failureCountResetTimeout := 3,
        state := .stateOpen, cells := [], pending := [] } 9 rfl
      { threshold := 1, halfOpenTimeout := 2, failureCountResetTimeout := 3,
        state := .stateHalfOpen, cells := [], pending := [] } rfl
      (.plain "x") rfl⟩

/-- One ignored-error invocation on a breaker that is not open: it
returns nil, the breaker is still not open afterwards, and the heap of
closed cells is only ever extended, never rewritten. -/
theorem ignore_step (c : CircuitBreakerImpl) (e : GoError) (hc : IsOpen c = false) :
    (InvokeFunc c (some (.ignoreError e))).result = .returned none ∧
    IsOpen (InvokeFunc c (some (.ignoreError e))).world = false ∧
    ∃ ext, (InvokeFunc c (some (.ignoreError e))).world.cells = c.cells ++ ext := by
  have hig : isIgnoreError (.ignoreError e) = true := rfl
  have hbr : InvokeFunc c (some (.ignoreError e)) =
      { result := .returned none, invoked := true, world := NotifySuccess c } := by
    simp [InvokeFunc, hc, hig]
  by_cases hh : isHalfOpen c
  · refine ⟨?_, ?_, [closedCell c.threshold], ?_⟩ <;>
      simp [hbr, NotifySuccess, hh, Close, mutateState, IsOpen]
  · refine ⟨?_, ?_, [], ?_⟩ <;>
      simp [hbr, NotifySuccess, hh, hc]

theorem ignoreN_props (c : CircuitBreakerImpl) (e : GoError) (hc : IsOpen c = false) :
    ∀ n, IsOpen (ignoreN e n c) = false ∧
      ∃ ext, (ignoreN e n c).cells = c.cells ++ ext := by
  intro n
  induction n with
  | zero => exact ⟨hc, [], by simp [ignoreN]⟩
  | succ n ih =>
    obtain ⟨hopen, ext, hcells⟩ := ih
    obtain ⟨-, hopen', ext2, hcells'⟩ := ignore_step (ignoreN e n c) e hopen
    exact ⟨hopen', ext ++ ext2, by simp [ignoreN, hcells', hcells]⟩

/-- C3 (amended): for every breaker that is not currently Open, and every
error wrapped in IgnoreError, InvokeFunc returns nil, never increments
any existing failure counter, and never transitions the breaker to Open,
however many times it is repeated. -/
theorem claim_C3 (c : CircuitBreakerImpl) (e : GoError) (n : Nat)
    (hc : IsOpen c = false) :
    (InvokeFunc c (some (.ignoreError e))).result = .returned none ∧
    IsOpen (ignoreN e n c) = false ∧
    ∀ j, j < c.cells.length → getCell (ignoreN e n c) j = getCell c j := by
  refine ⟨(ignore_step c e hc).1, (ignoreN_props c e hc n).1, ?_⟩
  intro j hj
  obtain ⟨-, ext, hcells⟩ := ignoreN_props c e hc n
  rw [getCell, getCell, hcells, getCellList_append_left _ _ _ hj]

/-- C3 counterexample: a breaker tripped Open by a single failure at
threshold 1 is then invoked with an IgnoreError-returning function; the
call returns the CircuitOpen error, not nil. -/
theorem claim_C3_counterexample :
    ¬ ((InvokeFunc (failN (.plain "f") 1 (NewCircuitBreaker 1 2 3))
        (some (.ignoreError (.plain "x")))).result = .returned none) := by
  decide

theorem claim_C3_witness :
    IsOpen (NewCircuitBreaker 2 5 7) = false ∧
    ((InvokeFunc (NewCircuitBreaker 2 5 7)
        (some (.ignoreError (.plain "x")))).result = .returned none ∧
      IsOpen (ignoreN (.plain "x") 4 (NewCircuitBreaker 2 5 7)) = false ∧
      ∀ j, j < (NewCircuitBreaker 2 5 7).cells.length →
        getCell (ignoreN (.plain "x") 4 (NewCircuitBreaker 2 5 7)) j =
          getCell (NewCircuitBreaker 2 5 7) j) :=
  ⟨rfl, claim_C3 (NewCircuitBreaker 2 5 7) (.plain "x") 4 rfl⟩

theorem mapLoad_store_other (m : List (String × CircuitBreakerImpl))
    (key k : String) (b : CircuitBreakerImpl) (hk : k ≠ key) :
    mapLoad (mapStore m key b) k = mapLoad m k := by
  induction m with
  | nil => simp [mapStore, mapLoad, Ne.symm hk]
  | cons hd tl ih =>
    obtain ⟨k0, v0⟩ := hd
    by_cases h0 : k0 = key
    · subst h0
      simp [mapStore, mapLoad, Ne.symm hk]
    · simp [mapStore, mapLoad, h0, ih]

theorem partitionedFailN_load_other (e : GoError) (a : String) (n : Nat)
    (p : PartitionedCircuitBreakerImpl) (b : String) (hab : a ≠ b) :
    mapLoad (partitionedFailN e a n p).circuitBreakerMap b =
      mapLoad p.circuitBreakerMap b := by
  induction n with
  | zero => rfl
  | succ n ih =>
    simp only [partitionedFailN, PartitionedInvokeFunc]
    rw [mapLoad_store_other _ _ _ _ (Ne.symm hab), ih]

theorem partitionedFailN_config (e : GoError) (a : String) (n : Nat)
    (p : PartitionedCircuitBreakerImpl) :
    (partitionedFailN e a n p).threshold = p.threshold ∧
    (partitionedFailN e a n p).halfOpenTimeout = p.halfOpenTimeout ∧
    (partitionedFailN e a n p).failureCountResetTimeout =
      p.failureCountResetTimeout := by
  induction n with
  | zero => exact ⟨rfl, rfl, rfl⟩
  | succ n ih => simpa [partitionedFailN, PartitionedInvokeFunc] using ih

/-- C5: two keys with distinct string representations share no failure
state: however many failing invocations are made under key a (including
enough to trip its breaker Open), an invocation under key b never
returns the CircuitOpen error. -/
theorem claim_C5 (T hot frt n : Nat) (a b : String) (hab : a ≠ b)
    (e : GoError) (r : Option GoError) :
    (PartitionedInvokeFunc
        (partitionedFailN e a n (NewPartitionedCircuitBreaker T hot frt)) b r).1 ≠
      .circuitOpen := by
  have hload :
      mapLoad (partitionedFailN e a n
        (NewPartitionedCircuitBreaker T hot frt)).circuitBreakerMap b = none := by
    rw [partitionedFailN_load_other e a n _ b hab]
    rfl
  have hfresh : ∀ T1 h1 f1, IsOpen (NewCircuitBreaker T1 h1 f1) = false :=
    fun _ _ _ => rfl
  simp only [PartitionedInvokeFunc, hload]
  cases r with
  | none => simp [InvokeFunc, hfresh]
  | some e1 =>
    by_cases hig : isIgnoreError e1
    · simp [InvokeFunc, hfresh, hig]
    · simp [InvokeFunc, hfresh, hig]

theorem claim_C5_witness :
    ("a" : String) ≠ "b" ∧
    (PartitionedInvokeFunc
        (partitionedFailN (.plain "f") "a" 3 (NewPartitionedCircuitBreaker 2 5 7))
        "b" (some (.plain "g"))).1 ≠ .circuitOpen :=
  ⟨by decide,
    claim_C5 2 5 7 3 "a" "b" (by decide) (.plain "f") (some (.plain "g"))⟩

/-- C6 (amended): DecrementFailureCount is a wrapping uint64 decrement,
not a saturating one: decrementing a live cell whose counter is zero
wraps the counter around to 2^64 - 1. -/
theorem claim_C6 (c : CircuitBreakerImpl) (i : Nat) (hi : i < c.cells.length)
    (h0 : FailureCount c i = 0) :
    FailureCount (DecrementFailureCount c i) i = uint64Mod - 1 := by
  have hlt : uint64Mod - 1 < uint64Mod := by norm_num [uint64Mod]
  simp only [FailureCount, DecrementFailureCount, getCell, setCell] at h0 ⊢
  rw [getCellList_set_self _ _ _ hi]
  simp [h0, Nat.mod_eq_of_lt hlt]

theorem claim_C6_witness :
    0 < (NewCircuitBreaker 5 1 1).cells.length ∧
    FailureCount (NewCircuitBreaker 5 1 1) 0 = 0 ∧
    FailureCount (DecrementFailureCount (NewCircuitBreaker 5 1 1) 0) 0 =
      uint64Mod - 1 :=
  ⟨by decide, rfl, claim_C6 (NewCircuitBreaker 5 1 1) 0 (by decide) rfl⟩

/-- C6 counterexample: on a freshly constructed breaker (failure count 0),
one DecrementFailureCount does not leave the counter at zero — it wraps. -/
theorem claim_C6_counterexample :
    ¬ (FailureCount (DecrementFailureCount (NewCircuitBreaker 5 1 1) 0) 0 = 0) := by
  decide

/-- C7: the delayed action armed by Open moves the breaker to HalfOpen at
fire time only when the state is still Open (a discriminant check); when
the breaker has since transitioned to any other state, the fired action
changes nothing, so a stale timer never moves a Closed or HalfOpen
breaker to HalfOpen. -/
theorem claim_C7 (c : CircuitBreakerImpl) (d : Nat) :
    (c.state = .stateOpen →
      (fireAction c (.halfOpenTimer d)).state = .stateHalfOpen) ∧
    (c.state ≠ .stateOpen → fireAction c (.halfOpenTimer d) = c) := by
  constructor
  · intro h
    simp [fireAction, IsOpen, h, HalfOpen, mutateState]
  · intro h
    cases hs : c.state with
    | stateOpen => exact absurd hs h
    | stateHalfOpen => simp [fireAction, IsOpen, hs]
    | stateClosed i => simp [fireAction, IsOpen, hs]

theorem claim_C7_witness :
    (NewCircuitBreaker 3 4 5).state ≠ .stateOpen ∧
    fireAction (NewCircuitBreaker 3 4 5) (.halfOpenTimer 4) =
      NewCircuitBreaker 3 4 5 :=
  ⟨by decide, (claim_C7 (NewCircuitBreaker 3 4 5) 4).2 (by decide)⟩

/-- C8: for every breaker in the Closed state, an InvokeFunc whose
guarded function succeeds (returns nil) or returns an IgnoreError leaves
the breaker completely unchanged — same Closed instance, same failure
count — and returns nil. -/
theorem claim_C8 (c : CircuitBreakerImpl) (i : Nat) (hc : c.state = .stateClosed i)
    (r : Option GoError) (hr : r = none ∨ ∃ e, r = some (.ignoreError e)) :
    InvokeFunc c r = { result := .returned none, invoked := true, world := c } := by
  have hopen : IsOpen c = false := by simp [IsOpen, hc]
  have hsucc : NotifySuccess c = c := by simp [NotifySuccess, isHalfOpen, hc]
  rcases hr with rfl | ⟨e, rfl⟩
  · simp [InvokeFunc, hopen, hsucc]
  · simp [InvokeFunc, hopen, hsucc, isIgnoreError]

theorem claim_C8_witness :
    (NewCircuitBreaker 3 1 1).state = .stateClosed 0 ∧
    InvokeFunc (NewCircuitBreaker 3 1 1) none =
      { result := .returned none, invoked := true,
        world := NewCircuitBreaker 3 1 1 } :=
  ⟨rfl, claim_C8 (NewCircuitBreaker 3 1 1) 0 rfl none (Or.inl rfl)⟩

/-- C9: a fresh Closed breaker (threshold at least 2, so one failure does
not trip it) that records one failure has failure count 1 and exactly one
armed decay action, bound to that same Closed cell; firing the decay
action after failureCountResetTimeout returns the count to 0, observable
through the View snapshot. -/
theorem claim_C9 (T hot frt : Nat) (e : GoError) (he : isIgnoreError e = false)
    (hT : 2 ≤ T) :
    (InvokeFunc (NewCircuitBreaker T hot frt) (some e)).world.state =
      .stateClosed 0 ∧
    FailureCount (InvokeFunc (NewCircuitBreaker T hot frt) (some e)).world 0 = 1 ∧
    (InvokeFunc (NewCircuitBreaker T hot frt) (some e)).world.pending =
      [.decayTimer 0 frt] ∧
    FailureCount
      (fireAction (InvokeFunc (NewCircuitBreaker T hot frt) (some e)).world
        (.decayTimer 0 frt)) 0 = 0 ∧
    (View (fireAction (InvokeFunc (NewCircuitBreaker T hot frt) (some e)).world
        (.decayTimer 0 frt))).State =
      "closed: \x7bfailureCount: " ++ toString (0 : Nat) ++ ", threshold: " ++
        toString T ++ "\x7d" := by
  have hmod : (0 + 1) % uint64Mod = 1 := by norm_num [uint64Mod]
  have hnot : ¬ (T ≤ 1) := by omega
  have h1 : (InvokeFunc (NewCircuitBreaker T hot frt) (some e)).world =
      { threshold := T, halfOpenTimeout := hot, failureCountResetTimeout := frt,
        state := .stateClosed 0, cells := [{ failureCount := 1, threshold := T }],
        pending := [.decayTimer 0 frt] } := by
    simp [InvokeFunc, NewCircuitBreaker, IsOpen, he, NotifyFailure, closedOnFailed,
      IncrementFailureCount, IsThresholdExceeded, getCell, setCell, getCellList,
      setCellList, closedCell, hmod, hnot]
  have hdec : (1 + (uint64Mod - 1)) % uint64Mod = 0 := by norm_num [uint64Mod]
  have h2 : fireAction (InvokeFunc (NewCircuitBreaker T hot frt) (some e)).world
      (.decayTimer 0 frt) =
      { threshold := T, halfOpenTimeout := hot, failureCountResetTimeout := frt,
        state := .stateClosed 0, cells := [{ failureCount := 0, threshold := T }],
        pending := [.decayTimer 0 frt] } := by
    rw [h1]
    simp [fireAction, DecrementFailureCount, getCell, setCell, getCellList,
      setCellList, hdec]
  refine ⟨?_, ?_, ?_, ?_, ?_⟩
  · rw [h1]
  · rw [h1]; rfl
  · rw [h1]
  · rw [h2]; rfl
  · rw [h2]; rfl

theorem claim_C9_witness :
    isIgnoreError (.plain "f") = false ∧ 2 ≤ 3 ∧
    ((InvokeFunc (NewCircuitBreaker 3 4 5) (some (.plain "f"))).world.state =
        .stateClosed 0 ∧
      FailureCount (InvokeFunc (NewCircuitBreaker 3 4 5)
        (some (.plain "f"))).world 0 = 1 ∧
      (InvokeFunc (NewCircuitBreaker 3 4 5) (some (.plain "f"))).world.pending =
        [.decayTimer 0 5] ∧
      FailureCount
        (fireAction (InvokeFunc (NewCircuitBreaker 3 4 5)
          (some (.plain "f"))).world (.decayTimer 0 5)) 0 = 0 ∧
      (View (fireAction (InvokeFunc (NewCircuitBreaker 3 4 5)
          (some (.plain "f"))).world (.decayTimer 0 5))).State =
        "closed: \x7bfailureCount: " ++ toString (0 : Nat) ++ ", threshold: " ++
          toString 3 ++ "\x7d") :=
  ⟨rfl, by norm_num, claim_C9 3 4 5 (.plain "f") rfl (by norm_num)⟩

/-- The configuration triple (threshold, halfOpenTimeout,
failureCountResetTimeout) of a breaker. -/
def configOf (c : CircuitBreakerImpl) : Nat × Nat × Nat :=
  (c.threshold, c.halfOpenTimeout, c.failureCountResetTimeout)

theorem configOf_Open (c : CircuitBreakerImpl) : configOf (Open c) = configOf c := rfl

theorem configOf_HalfOpen (c : CircuitBreakerImpl) :
    configOf (HalfOpen c) = configOf c := rfl

theorem configOf_Close (c : CircuitBreakerImpl) :
    configOf (Close c) = configOf c := rfl

theorem configOf_closedOnFailed (c : CircuitBreakerImpl) (i : Nat) :
    configOf (closedOnFailed c i) = configOf c := by
  simp only [closedOnFailed]
  split <;> rfl

theorem configOf_NotifyFailure (c : CircuitBreakerImpl) :
    configOf (NotifyFailure c) = configOf c := by
  cases hs : c.state <;>
    simp [NotifyFailure, hs, configOf_closedOnFailed, configOf_Open]

theorem configOf_NotifySuccess (c : CircuitBreakerImpl) :
    configOf (NotifySuccess c) = configOf c := by
  by_cases h : isHalfOpen c <;> simp [NotifySuccess, h, configOf_Close]

theorem configOf_InvokeFunc (c : CircuitBreakerImpl) (r : Option GoError) :
    configOf (InvokeFunc c r).world = configOf c := by
  by_cases h : IsOpen c
  · simp [InvokeFunc, h]
  · cases r with
    | none => simp [InvokeFunc, h, configOf_NotifySuccess]
    | some e =>
      by_cases hig : isIgnoreError e
      · simp [InvokeFunc, h, hig, configOf_NotifySuccess]
      · simp [InvokeFunc, h, hig, configOf_NotifyFailure]

theorem configOf_fireAction (c : CircuitBreakerImpl) (a : Action) :
    configOf (fireAction c a) = configOf c := by
  cases a with
  | halfOpenTimer d =>
    by_cases h : IsOpen c <;> simp [fireAction, h, configOf_HalfOpen]
  | decayTimer i d => simp [fireAction, DecrementFailureCount, configOf, setCell]

/-- C10: every operation on a breaker — InvokeFunc, NotifyFailure,
NotifySuccess, Open, HalfOpen, Close, the delayed actions, and View —
leaves the configuration fields threshold, halfOpenTimeout and
failureCountResetTimeout unchanged; View only reads them into the
snapshot. -/
theorem claim_C10 (c : CircuitBreakerImpl) (r : Option GoError) (a : Action) :
    configOf (InvokeFunc c r).world = configOf c ∧
    configOf (NotifyFailure c) = configOf c ∧
    configOf (NotifySuccess c) = configOf c ∧
    configOf (Open c) = configOf c ∧
    configOf (HalfOpen c) = configOf c ∧
    configOf (Close c) = configOf c ∧
    configOf (fireAction c a) = configOf c ∧
    View c =
      { Threshold := c.threshold, State := stateString c,
        HalfOpenTimeout := c.halfOpenTimeout,
        FailureCountResetTimeout := c.failureCountResetTimeout } :=
  ⟨configOf_InvokeFunc c r, configOf_NotifyFailure c, configOf_NotifySuccess c,
    configOf_Open c, configOf_HalfOpen c, configOf_Close c,
    configOf_fireAction c a, rfl⟩

/-- C4: evaluating PartitionedCircuitBreakerImpl.InvokeFunc on the
interleaving in which two callers both Load a brand-new key before
either Stores shows that two distinct Breaker instances are constructed
for that one key and the callers use different instances — the
registry's load-then-conditionally-create-then-store sequence is not an
atomic get-or-create. -/
theorem claim_C4 :
    firstAccessRace.1.breakersCreated = 2 ∧
    firstAccessRace.2.1 ≠ firstAccessRace.2.2 := by
  decide

end CircuitBreakerGo
